import Mathlib

/-!
Shallow embedding of the VozNota backend (FastAPI + Cloudant + Watson STT)
and proofs about its authentication, ownership, password, and transcription
logic.  Python strings are modelled as Lean `String`, or as UTF-8 byte lists
(`List Nat`) where byte-level behaviour matters; fallible Python code is
modelled with `Except`; remote services are modelled as explicit oracles.
-/

namespace VozNota

/-! ## UTF-8 byte-level model

`UserService.hash_password` and `verify_password` truncate via
`password.encode('utf-8')[:72].decode('utf-8', errors='ignore')`.  We model
the byte string of a password as `List Nat` and CPython's utf-8 decoder with
the `ignore` error handler, which drops malformed byte sequences (for a valid
encoding cut at byte 72, the trailing incomplete character). -/

/-- Byte is a UTF-8 continuation byte (0x80 to 0xBF). -/
def isCont (b : Nat) : Bool := 128 ≤ b && b ≤ 191

/-- Valid first continuation byte for a 3-byte sequence with lead `b`
(CPython decoder ranges: lead 0xE0 needs 0xA0-0xBF, lead 0xED needs
0x80-0x9F to exclude surrogates, otherwise 0x80-0xBF). -/
def cont3Ok (b b2 : Nat) : Bool :=
  if b == 224 then 160 ≤ b2 && b2 ≤ 191
  else if b == 237 then 128 ≤ b2 && b2 ≤ 159
  else isCont b2

/-- Valid first continuation byte for a 4-byte sequence with lead `b`
(lead 0xF0 needs 0x90-0xBF, lead 0xF4 needs 0x80-0x8F, otherwise 0x80-0xBF). -/
def cont4Ok (b b2 : Nat) : Bool :=
  if b == 240 then 144 ≤ b2 && b2 ≤ 191
  else if b == 244 then 128 ≤ b2 && b2 ≤ 143
  else isCont b2

/-- Check of the continuation bytes of a 2-byte sequence (tail after the lead). -/
def head2 : List Nat → Option Nat
  | b2 :: _ => if isCont b2 then some 2 else none
  | [] => none

/-- Check of the continuation bytes of a 3-byte sequence with lead `b`. -/
def head3 (b : Nat) : List Nat → Option Nat
  | b2 :: b3 :: _ => if cont3Ok b b2 && isCont b3 then some 3 else none
  | _ => none

/-- Check of the continuation bytes of a 4-byte sequence with lead `b`. -/
def head4 (b : Nat) : List Nat → Option Nat
  | b2 :: b3 :: b4 :: _ =>
    if cont4Ok b b2 && isCont b3 && isCont b4 then some 4 else none
  | _ => none

/-- Length in bytes of the valid UTF-8 character at the head of the list, or
`none` if the head is not a complete valid character. -/
def headCharLen : List Nat → Option Nat
  | [] => none
  | b :: t =>
    if b ≤ 127 then some 1
    else if 194 ≤ b && b ≤ 223 then head2 t
    else if 224 ≤ b && b ≤ 239 then head3 b t
    else if 240 ≤ b && b ≤ 244 then head4 b t
    else none

/-- Number of bytes CPython's utf-8 decoder treats as the malformed portion at
the head of the list (the maximal valid subpart; at least 1 for a non-empty
list). -/
def skipLen : List Nat → Nat
  | [] => 0
  | b :: t =>
    if b ≤ 127 then 1
    else if 194 ≤ b && b ≤ 223 then 1
    else if 224 ≤ b && b ≤ 239 then
      match t with
      | b2 :: _ => if cont3Ok b b2 then 2 else 1
      | [] => 1
    else if 240 ≤ b && b ≤ 244 then
      match t with
      | b2 :: b3 :: _ => if cont4Ok b b2 then (if isCont b3 then 3 else 2) else 1
      | [b2] => if cont4Ok b b2 then 2 else 1
      | [] => 1
    else 1

/-- Fuel-indexed worker for `utf8Ignore`; fuel `p.length` always suffices
because each step consumes at least one byte. -/
def utf8IgnoreGo : Nat → List Nat → List Nat
  | _, [] => []
  | 0, _ :: _ => []
  | fuel + 1, b :: t =>
    match headCharLen (b :: t) with
    | some k => (b :: t).take k ++ utf8IgnoreGo fuel ((b :: t).drop k)
    | none => utf8IgnoreGo fuel ((b :: t).drop (skipLen (b :: t)))

/-- Python `bytes.decode('utf-8', errors='ignore')` followed by re-encoding to
UTF-8: keeps exactly the valid UTF-8 characters, dropping malformed bytes. -/
def utf8Ignore (p : List Nat) : List Nat := utf8IgnoreGo p.length p

/-- Fuel-indexed worker for `utf8ValidB`. -/
def utf8ValidGo : Nat → List Nat → Bool
  | _, [] => true
  | 0, _ :: _ => false
  | fuel + 1, b :: t =>
    match headCharLen (b :: t) with
    | some k => utf8ValidGo fuel ((b :: t).drop k)
    | none => false

/-- Whether the byte list is a valid UTF-8 encoding.  Every byte string
produced by Python `str.encode('utf-8')` is valid. -/
def utf8ValidB (p : List Nat) : Bool := utf8ValidGo p.length p

/-! ## UserService password hashing (src/services/user_service.py) -/

/-- Truncation applied by `UserService.hash_password` and
`UserService.verify_password`: when the UTF-8 encoding exceeds 72 bytes, keep
the first 72 bytes decoded with `errors='ignore'` (dropping a trailing
incomplete character); otherwise the password is unchanged. -/
def truncatePassword (p : List Nat) : List Nat :=
  if 72 < p.length then utf8Ignore (p.take 72) else p

/-- Ideal functional model of a bcrypt digest: verification succeeds exactly
on the byte string that was hashed.  Salt and cost factor do not affect this
functional contract, and bcrypt collisions are outside the model. -/
structure BcryptHash where
  digest : List Nat
deriving DecidableEq

/-- `UserService.hash_password`: truncate to 72 UTF-8 bytes if needed, then
hash with bcrypt (modelled ideally). -/
def hash_password (password : List Nat) : BcryptHash :=
  ⟨truncatePassword password⟩

/-- `UserService.verify_password`: apply the same truncation as the hash path,
then run bcrypt verification (modelled ideally). -/
def verify_password (plain : List Nat) (h : BcryptHash) : Bool :=
  truncatePassword plain == h.digest

/-! ## UserService user records and store (src/services/user_service.py)

The Cloudant users database is modelled as a list of user documents; the
`post_find` query with selector `{"email": email}` and `limit=1` returns the
first stored document with that email.  A store interaction that can fail is
modelled as an `Except String` value (the error being the exception text). -/

/-- User document as persisted by `UserService.create_user`. -/
structure UserDoc where
  _id : String
  email : String
  hashed_password : BcryptHash
  created_at : String
  is_active : Bool
deriving DecidableEq

/-- Record returned to callers by `create_user` and `authenticate_user`:
the stored document without its `hashed_password` field. -/
structure UserPublic where
  _id : String
  email : String
  created_at : String
  is_active : Bool
deriving DecidableEq

/-- Result of `client.post_find` with selector `{"email": email}`, `limit=1`
on a healthy store: the first stored document with that email. -/
def postFindUsers (docs : List UserDoc) (email : String) : Except String (List UserDoc) :=
  .ok ((docs.filter (fun d => d.email == email)).take 1)

/-- `UserService.get_user_by_email`: run the `post_find` query and return the
first returned document, or `none`; store errors are logged and re-raised. -/
def get_user_by_email (postFindResult : Except String (List UserDoc)) :
    Except String (Option UserDoc) :=
  match postFindResult with
  | .error e => .error e
  | .ok docs => .ok docs.head?

/-- Errors raised by `UserService.create_user`: `ValueError` when the email
is taken (`DuplicateIdentity`), re-raised as-is, and any other exception
re-wrapped as `Exception(f"Error al crear usuario: ...")`. -/
inductive CreateUserErr where
  | duplicateIdentity (email : String)
  | wrapped (msg : String)
deriving DecidableEq

/-- `UserService.create_user` over a healthy store: look up the email first
and fail with `DuplicateIdentity` if a user exists; otherwise truncate the
password (the same 72-byte rule), hash it, append the new document (Cloudant
assigns `freshId`), and return the record without the hash. -/
def create_user (docs : List UserDoc) (freshId nowTs email : String)
    (password : List Nat) : Except CreateUserErr (UserPublic × List UserDoc) :=
  match get_user_by_email (postFindUsers docs email) with
  | .error e => .error (.wrapped ("Error al crear usuario: " ++ e))
  | .ok (some _) => .error (.duplicateIdentity email)
  | .ok none =>
    let password_to_hash := truncatePassword password
    let hashed := hash_password password_to_hash
    let doc : UserDoc := ⟨freshId, email, hashed, nowTs, true⟩
    .ok (⟨freshId, email, nowTs, true⟩, docs ++ [doc])

/-- `UserService.authenticate_user`: look up by email, verify the password,
check the active flag; returns the user without the hash or `none`.  The
body is wrapped in a blanket `except Exception: return None`, so the function
never raises — modelled by the result type being `Except` with the error
branch of the lookup mapped to `.ok none`. -/
def authenticate_user (postFindResult : Except String (List UserDoc))
    (password : List Nat) : Except String (Option UserPublic) :=
  match get_user_by_email postFindResult with
  | .error _ => .ok none
  | .ok none => .ok none
  | .ok (some user) =>
    if verify_password password user.hashed_password = false then .ok none
    else if user.is_active = false then .ok none
    else .ok (some ⟨user._id, user.email, user.created_at, user.is_active⟩)

/-- `authenticate_user` run against a healthy list-backed store. -/
def authenticateInStore (docs : List UserDoc) (email : String)
    (password : List Nat) : Except String (Option UserPublic) :=
  authenticate_user (postFindUsers docs email) password

/-! ## AuthService JWT tokens (src/services/auth_service.py)

The HMAC-signed JWT is modelled symbolically: a well-formed token carries its
payload and the secret it was signed with, and signature verification
succeeds exactly when the verifying secret matches (ideal MAC, no forgery or
collisions); any non-JWS input is `malformed`.  Time is epoch seconds. -/

/-- Claims carried by the tokens this service mints (`sub`, `email`, `exp`). -/
structure JwtPayload where
  sub : Option String
  email : Option String
  exp : Option Int
deriving DecidableEq

/-- A JWT string: either a well-formed token signed with some secret, or a
string that does not parse as a JWS at all. -/
inductive JwtToken where
  | signed (payload : JwtPayload) (secret : String)
  | malformed (raw : String)
deriving DecidableEq

/-- Errors raised by `jose.jwt.decode` (all subclasses of `JWTError`). -/
inductive JwtErr where
  | badSignature
  | expiredSignature
  | malformedToken
deriving DecidableEq

/-- `jose.jwt.encode(payload, secret, algorithm)`. -/
def jwtEncode (payload : JwtPayload) (secret : String) : JwtToken :=
  .signed payload secret

/-- `jose.jwt.decode(token, secret, algorithms)`: checks the signature, then
the `exp` claim with zero leeway (`ExpiredSignatureError` exactly when
`exp < now`). -/
def jwtDecode (token : JwtToken) (secret : String) (now : Int) :
    Except JwtErr JwtPayload :=
  match token with
  | .malformed _ => .error .malformedToken
  | .signed p s =>
    if s ≠ secret then .error .badSignature
    else match p.exp with
      | some exp => if exp < now then .error .expiredSignature else .ok p
      | none => .ok p

/-- `AuthService.create_access_token` with `expires_delta=None`: copy the data
claims and add `exp = now + JWT_ACCESS_TOKEN_EXPIRE_MINUTES minutes`, then
sign with `JWT_SECRET_KEY`. -/
def create_access_token (secret : String) (ttlMinutes : Int)
    (sub email : Option String) (now : Int) : JwtToken :=
  jwtEncode ⟨sub, email, some (now + ttlMinutes * 60)⟩ secret

/-- The generic 401 `credentials_exception` (`HTTP_401_UNAUTHORIZED`,
"No se pudieron validar las credenciales"). -/
inductive AuthErr where
  | invalidToken
deriving DecidableEq

/-- `AuthService.verify_token`: decode with the configured secret; any
`JWTError` and a missing `sub` claim are both mapped to the generic 401
credentials exception; on success returns `TokenData(user_id, email)`. -/
def verify_token (secret : String) (token : JwtToken) (now : Int) :
    Except AuthErr (String × Option String) :=
  match jwtDecode token secret now with
  | .error _ => .error .invalidToken
  | .ok p =>
    match p.sub with
    | none => .error .invalidToken
    | some uid => .ok (uid, p.email)

/-! ## CloudantService notes store (src/services/cloudant_service.py)

The transcription database is modelled as a list of note documents.
`client.get_document` raises `ApiException` with code 404 for a missing id;
`CloudantService.get_transcription` logs and re-raises every exception
(unlike `UserService.get_user_by_id`, it has no 404-to-None handling). -/

/-- Exception from the Cloudant SDK (`ApiException`): HTTP code and message. -/
structure ApiErr where
  code : Nat
  msg : String
deriving DecidableEq

/-- Note document persisted by `CloudantService.save_transcription` (plus the
store-assigned `_id` and `_rev`).  `user_id` is `Option` because the
ownership check in `main.py` reads it with `note.get("user_id")`. -/
structure NoteDoc where
  _id : String
  _rev : String
  user_id : Option String
  titulo : String
  texto : String
deriving DecidableEq

/-- `client.get_document` on a healthy store: the document with that id, or
an `ApiException` with code 404. -/
def getDocument (docs : List NoteDoc) (docId : String) : Except ApiErr NoteDoc :=
  match docs.find? (fun d => d._id == docId) with
  | some d => .ok d
  | none => .error ⟨404, "not_found"⟩

/-- `CloudantService.get_transcription`: fetch by id; every exception is
logged and re-raised unchanged (there is no 404-to-None conversion). -/
def get_transcription (docs : List NoteDoc) (docId : String) : Except ApiErr NoteDoc :=
  getDocument docs docId

/-- `client.delete_document` on a healthy store: requires the id to exist and
the revision to match; deletes the document. -/
def delete_document (docs : List NoteDoc) (docId rev : String) :
    Except ApiErr (List NoteDoc) :=
  match docs.find? (fun d => d._id == docId) with
  | some d =>
    if d._rev == rev then .ok (docs.filter (fun d2 => !(d2._id == docId)))
    else .error ⟨409, "conflict"⟩
  | none => .error ⟨404, "not_found"⟩

/-- `CloudantService.delete_transcription`: delete by id and revision; any
exception is re-wrapped as `Exception(f"Error al eliminar transcripción:")`. -/
def delete_transcription (docs : List NoteDoc) (docId rev : String) :
    Except ApiErr (List NoteDoc) :=
  match delete_document docs docId rev with
  | .ok docs2 => .ok docs2
  | .error e => .error ⟨0, "Error al eliminar transcripción: " ++ e.msg⟩

/-! ## Note routes (src/main.py)

`HttpResult` is the outcome of a FastAPI handler: either a 2xx value or an
`HTTPException` with a status code and detail.  `StoreOp` records the store
calls a handler issued, in order, so that read-before-delete and the absence
of a delete call are visible in the theorems. -/

/-- Outcome of a route handler. -/
inductive HttpResult (α : Type) where
  | ok (value : α)
  | err (statusCode : Nat) (detail : String)
deriving DecidableEq

/-- A store call issued by a handler. -/
inductive StoreOp where
  | read (id : String)
  | delete (id : String) (rev : String)
deriving DecidableEq

/-- `GET /api/notes/{note_id}` (`get_note_by_id` in main.py), after the
authorization gate resolved `currentUserId`: fetch the note, 404 if the
handler sees no note (dead code in the source, since `get_transcription`
raises instead of returning `None`), 403 unless `note.get("user_id")` equals
the caller's id, else return the note; any other exception becomes a 500. -/
def get_note_by_id (docs : List NoteDoc) (noteId currentUserId : String) :
    HttpResult NoteDoc :=
  match get_transcription docs noteId with
  | .error e => .err 500 ("Error al obtener la nota: " ++ e.msg)
  | .ok note =>
    if note.user_id ≠ some currentUserId then
      .err 403 "No tienes permiso para acceder a esta nota"
    else .ok note

/-- `DELETE /api/notes/{note_id}` (`delete_note` in main.py): read the note
first (for `_rev` and the permission check), 404 if the handler sees no note
(dead code, as above), 403 unless the note belongs to the caller, otherwise
delete with the read revision.  Returns the outcome, the store calls issued,
and the resulting store contents. -/
def delete_note (docs : List NoteDoc) (noteId currentUserId : String) :
    HttpResult String × List StoreOp × List NoteDoc :=
  match get_transcription docs noteId with
  | .error e =>
    (.err 500 ("Error al eliminar la nota: " ++ e.msg), [.read noteId], docs)
  | .ok note =>
    if note.user_id ≠ some currentUserId then
      (.err 403 "No tienes permiso para eliminar esta nota", [.read noteId], docs)
    else
      match delete_transcription docs noteId note._rev with
      | .ok docs2 =>
        (.ok ("Nota " ++ noteId ++ " eliminada exitosamente"),
         [.read noteId, .delete noteId note._rev], docs2)
      | .error e =>
        (.err 500 ("Error al eliminar la nota: " ++ e.msg),
         [.read noteId, .delete noteId note._rev], docs)

/-! ## Watson STT transcription client (src/services/watson_service.py)

The speech service is an oracle mapping a content type (for fixed audio
bytes) to either a recognition response or an exception.  A response may
lack a `results` key (or be empty/falsy), modelled by `Option`. -/

/-- One alternative of a recognition result; `transcript` is read with
`alternative.get('transcript', '')`, so the key may be absent. -/
structure RecogAlt where
  transcript : Option String
deriving DecidableEq

/-- One recognition result; an absent `alternatives` key behaves like `[]`. -/
structure RecogResult where
  alternatives : List RecogAlt
deriving DecidableEq

/-- A Watson response: `none` models a falsy response or one without a
`results` key; otherwise the list of results. -/
structure RecogResponse where
  results : Option (List RecogResult)
deriving DecidableEq

/-- Exception raised by a recognition attempt. -/
structure WatsonErr where
  msg : String
deriving DecidableEq

/-- Python lowercase whitespace set used by `str.split()` / `str.strip()`. -/
def isPySpace (c : Char) : Bool :=
  let n := c.toNat
  (9 ≤ n && n ≤ 13) || (28 ≤ n && n ≤ 32) || n == 133 || n == 160 ||
  n == 5760 || (8192 ≤ n && n ≤ 8202) || n == 8232 || n == 8233 ||
  n == 8239 || n == 8287 || n == 12288

/-- Worker for `pySplit`: accumulates the current word (reversed). -/
def pySplitGo : List Char → List Char → List (List Char)
  | [], acc => if acc.isEmpty then [] else [acc.reverse]
  | c :: cs, acc =>
    if isPySpace c then
      if acc.isEmpty then pySplitGo cs [] else acc.reverse :: pySplitGo cs []
    else pySplitGo cs (c :: acc)

/-- Python `str.split()` with no argument: maximal runs of non-whitespace. -/
def pySplit (s : String) : List String :=
  (pySplitGo s.data []).map (fun l => String.mk l)

/-- Python `str.strip()`: drop leading and trailing whitespace. -/
def pyStrip (s : String) : String :=
  String.mk (((s.data.dropWhile isPySpace).reverse.dropWhile isPySpace).reverse)

/-- Python `' '.join(words)`. -/
def joinSpace : List String → String
  | [] => ""
  | [w] => w
  | w :: w2 :: ws => w ++ " " ++ joinSpace (w2 :: ws)

/-- Whether the first list is a prefix of the second. -/
def isPrefixList : List Char → List Char → Bool
  | [], _ => true
  | _ :: _, [] => false
  | a :: as, b :: bs => a == b && isPrefixList as bs

/-- Whether `needle` occurs as a contiguous sublist of the second list. -/
def hasInfix (needle : List Char) : List Char → Bool
  | [] => needle.isEmpty
  | b :: bs => isPrefixList needle (b :: bs) || hasInfix needle bs

/-- Python `needle in haystack` on strings. -/
def containsSub (haystack needle : String) : Bool :=
  hasInfix needle.data haystack.data

/-- ASCII lowercasing of one character.  The needles checked below
("wav", "transcode") are ASCII, so Python's Unicode-aware `str.lower()`
agrees with ASCII lowercasing on every byte that can matter. -/
def asciiLower (c : Char) : Char :=
  if 65 ≤ c.toNat && c.toNat ≤ 90 then Char.ofNat (c.toNat + 32) else c

/-- Python `str.lower()` (ASCII fragment, see `asciiLower`). -/
def strLower (s : String) : String :=
  String.mk (s.data.map asciiLower)

/-- The check `"transcode" not in error_msg.lower()` negated: whether the
message indicates a transcoding/format mismatch. -/
def isTranscodeErr (msg : String) : Bool :=
  containsSub (strLower msg) "transcode"

/-- The hardcoded fallback content types tried after the declared one when it
looks like WAV. -/
def fallbackTypes : List String :=
  ["audio/webm", "audio/webm;codecs=opus", "audio/ogg;codecs=opus",
   "audio/mp4", "audio/mpeg"]

/-- `content_types_to_try`: the declared type first; if `"wav"` occurs in the
lowercased declared type, the five fallbacks follow in fixed order. -/
def candidateTypes (content_type : String) : List String :=
  content_type ::
    (if containsSub (strLower content_type) "wav" then fallbackTypes else [])

/-- Lines 86-95 of watson_service.py: take `alternatives[0].get('transcript',
'')` of every result that has a non-empty `alternatives` list, join with
single spaces, and strip. -/
def extractTranscripts (results : List RecogResult) : String :=
  let ts := results.filterMap (fun r =>
    match r.alternatives with
    | a :: _ => some (a.transcript.getD "")
    | [] => none)
  pyStrip (joinSpace ts)

/-- The `for ct in content_types_to_try` loop of
`WatsonSTTService.transcribe_audio`, carrying `last_error`: an attempt whose
response has a non-empty `results` list returns the joined transcripts at
once (even if they are empty strings); a response without results continues;
an exception whose message mentions "transcode" is recorded and the loop
continues; any other exception is raised immediately.  After the loop the
last recorded error, if any, is re-raised; otherwise the empty string is
returned. -/
def tryContentTypes (attempt : String → Except WatsonErr RecogResponse) :
    List String → Option WatsonErr → Except WatsonErr String
  | [], lastErr =>
    match lastErr with
    | some e => .error e
    | none => .ok ""
  | ct :: rest, lastErr =>
    match attempt ct with
    | .ok resp =>
      match resp.results with
      | some rs =>
        if rs.isEmpty then tryContentTypes attempt rest lastErr
        else .ok (extractTranscripts rs)
      | none => tryContentTypes attempt rest lastErr
    | .error e =>
      if isTranscodeErr e.msg then tryContentTypes attempt rest (some e)
      else .error e

/-- `WatsonSTTService.transcribe_audio`: build the candidate list, run the
loop, and wrap any escaping exception as
`Exception(f"Error al transcribir audio: ...")` (the outer handler). -/
def transcribe_audio (attempt : String → Except WatsonErr RecogResponse)
    (content_type : String) : Except WatsonErr String :=
  match tryContentTypes attempt (candidateTypes content_type) none with
  | .ok s => .ok s
  | .error e => .error ⟨"Error al transcribir audio: " ++ e.msg⟩

/-- `WatsonSTTService.generate_title`: placeholder for an empty text,
otherwise the first `max_words` whitespace-separated words joined by single
spaces, with `"..."` appended when more words existed.  Pure and
deterministic. -/
def generate_title (text : String) (max_words : Nat) : String :=
  if text = "" then "Nota sin título"
  else
    let words := pySplit text
    let title := joinSpace (words.take max_words)
    if max_words < words.length then title ++ "..." else title

/-- An attempt that the transcription loop passes over: either a recognition
error whose message mentions "transcode", or a response without a non-empty
`results` list. -/
def attemptSkipped (attempt : String → Except WatsonErr RecogResponse)
    (c : String) : Prop :=
  (∃ e, attempt c = .error e ∧ isTranscodeErr e.msg = true) ∨
  attempt c = .ok ⟨none⟩ ∨ attempt c = .ok ⟨some []⟩

/-- The errors raised by the attempts on `cts`, in order. -/
def erroredAttempts (attempt : String → Except WatsonErr RecogResponse)
    (cts : List String) : List WatsonErr :=
  cts.filterMap (fun c => match attempt c with | .error e => some e | .ok _ => none)

/-- Value of the loop's `last_error` variable after processing all of `cts`
without returning, starting from `la`: each erroring attempt overwrites it,
each non-erroring attempt leaves it unchanged. -/
def lastErrAfter (attempt : String → Except WatsonErr RecogResponse) :
    List String → Option WatsonErr → Option WatsonErr
  | [], la => la
  | c :: cs, la =>
    lastErrAfter attempt cs
      (match attempt c with | .error e => some e | .ok _ => la)

/-! ## Concrete data used by closed counterexample and code-bug theorems -/

/-- Speech-service oracle for the C5 counterexample: the declared WAV type
yields one result whose only alternative transcript is the empty string; the
first fallback (`audio/webm`) would yield the transcript "hola". -/
def cexAttempt : String → Except WatsonErr RecogResponse :=
  fun ct =>
    if ct == "audio/wav" then .ok ⟨some [⟨[⟨some ""⟩]⟩]⟩
    else if ct == "audio/webm" then .ok ⟨some [⟨[⟨some "hola"⟩]⟩]⟩
    else .ok ⟨some []⟩

/-- A one-note store owned by user `alice`, used by closed theorems. -/
def demoNotes : List NoteDoc :=
  [⟨"n1", "1-abc", some "alice", "Nota", "hola mundo"⟩]

/-- Oracle for the C5 witness: the declared WAV type fails with a transcode
error and the first fallback succeeds with transcript "hola". -/
def witAttempt : String → Except WatsonErr RecogResponse :=
  fun ct =>
    if ct == "audio/wav" then .error ⟨"unable to transcode audio/wav to audio/l16"⟩
    else if ct == "audio/webm" then .ok ⟨some [⟨[⟨some "hola"⟩]⟩]⟩
    else .error ⟨"unreachable"⟩

/-- Oracle for the C6 witness, abort case: a transcode error on the declared
type, then a non-transcode error on the first fallback. -/
def failAttempt : String → Except WatsonErr RecogResponse :=
  fun ct =>
    if ct == "audio/wav" then .error ⟨"cannot transcode audio"⟩
    else .error ⟨"connection reset"⟩

/-- Oracle for the C6 witness, exhaustion case: every attempt fails with a
transcode error naming its content type. -/
def allFailAttempt : String → Except WatsonErr RecogResponse :=
  fun ct => .error ⟨"unable to transcode to " ++ ct⟩

/-- Oracle for the C6 witness, no-results case: every attempt returns an
empty `results` list. -/
def emptyAttempt : String → Except WatsonErr RecogResponse :=
  fun _ => .ok ⟨some []⟩

/-! ## Theorems -/

theorem head2_bounds (t : List Nat) (k : Nat) (h : head2 t = some k) :
    k = 2 ∧ 1 ≤ t.length := by
  cases t with
  | nil => simp [head2] at h
  | cons b2 t2 =>
    simp only [head2] at h
    split at h
    · cases h; simp
    · cases h

theorem head3_bounds (b : Nat) (t : List Nat) (k : Nat) (h : head3 b t = some k) :
    k = 3 ∧ 2 ≤ t.length := by
  match t with
  | [] => simp [head3] at h
  | [b2] => simp [head3] at h
  | b2 :: b3 :: t3 =>
    simp only [head3] at h
    split at h
    · cases h; simp
    · cases h

theorem head4_bounds (b : Nat) (t : List Nat) (k : Nat) (h : head4 b t = some k) :
    k = 4 ∧ 3 ≤ t.length := by
  match t with
  | [] => simp [head4] at h
  | [b2] => simp [head4] at h
  | [b2, b3] => simp [head4] at h
  | b2 :: b3 :: b4 :: t4 =>
    simp only [head4] at h
    split at h
    · cases h; simp
    · cases h

theorem headCharLen_bounds (p : List Nat) (k : Nat) (h : headCharLen p = some k) :
    1 ≤ k ∧ k ≤ p.length := by
  match p with
  | [] => simp [headCharLen] at h
  | b :: t =>
    simp only [headCharLen] at h
    split at h
    · cases h; simp
    · split at h
      · have h2 := head2_bounds t k h
        simp only [List.length_cons]
        omega
      · split at h
        · have h3 := head3_bounds b t k h
          simp only [List.length_cons]
          omega
        · split at h
          · have h4 := head4_bounds b t k h
            simp only [List.length_cons]
            omega
          · cases h

theorem utf8IgnoreGo_length_le (fuel : Nat) :
    ∀ p : List Nat, (utf8IgnoreGo fuel p).length ≤ p.length := by
  induction fuel with
  | zero =>
    intro p
    match p with
    | [] => simp [utf8IgnoreGo]
    | b :: t => simp [utf8IgnoreGo]
  | succ n ih =>
    intro p
    match p with
    | [] => simp [utf8IgnoreGo]
    | b :: t =>
      simp only [utf8IgnoreGo]
      cases hh : headCharLen (b :: t) with
      | some k =>
        have hb := headCharLen_bounds _ _ hh
        have h1 := ih ((b :: t).drop k)
        simp only [List.length_append, List.length_take, List.length_drop,
          List.length_cons] at *
        omega
      | none =>
        have h1 := ih ((b :: t).drop (skipLen (b :: t)))
        simp only [List.length_drop, List.length_cons] at *
        omega

theorem utf8Ignore_length_le (p : List Nat) : (utf8Ignore p).length ≤ p.length :=
  utf8IgnoreGo_length_le p.length p

theorem truncatePassword_length_le (p : List Nat) :
    (truncatePassword p).length ≤ 72 := by
  unfold truncatePassword
  split
  · have h1 := utf8Ignore_length_le (p.take 72)
    simp only [List.length_take] at h1
    omega
  · omega

theorem truncatePassword_of_le (q : List Nat) (h : q.length ≤ 72) :
    truncatePassword q = q := by
  unfold truncatePassword
  rw [if_neg (by omega)]

theorem truncatePassword_idem (p : List Nat) :
    truncatePassword (truncatePassword p) = truncatePassword p :=
  truncatePassword_of_le _ (truncatePassword_length_le p)

theorem utf8IgnoreGo_valid_id (fuel : Nat) :
    ∀ p : List Nat, p.length ≤ fuel → utf8ValidGo fuel p = true →
      utf8IgnoreGo fuel p = p := by
  induction fuel with
  | zero =>
    intro p hlen _
    match p with
    | [] => rfl
    | b :: t => simp at hlen
  | succ n ih =>
    intro p hlen hv
    match p with
    | [] => rfl
    | b :: t =>
      simp only [utf8IgnoreGo]
      simp only [utf8ValidGo] at hv
      cases hh : headCharLen (b :: t) with
      | some k =>
        rw [hh] at hv
        simp only [hh]
        have hb := headCharLen_bounds _ _ hh
        have hdrop : ((b :: t).drop k).length ≤ n := by
          simp only [List.length_drop, List.length_cons]
          simp only [List.length_cons] at hlen hb
          omega
        rw [ih _ hdrop hv]
        exact List.take_append_drop k (b :: t)
      | none => rw [hh] at hv; cases hv

theorem utf8Ignore_valid_id (p : List Nat) (h : utf8ValidB p = true) :
    utf8Ignore p = p :=
  utf8IgnoreGo_valid_id p.length p le_rfl h

theorem truncatePassword_take_eq (p q : List Nat)
    (hvp : utf8ValidB p = true) (hvq : utf8ValidB q = true)
    (htake : p.take 72 = q.take 72) :
    truncatePassword p = truncatePassword q := by
  unfold truncatePassword
  by_cases h1 : 72 < p.length <;> by_cases h2 : 72 < q.length
  · simp only [if_pos h1, if_pos h2, htake]
  · have hq : q.take 72 = q := List.take_of_length_le (by omega)
    simp only [if_pos h1, if_neg h2]
    rw [htake, hq, utf8Ignore_valid_id q hvq]
  · have hp : p.take 72 = p := List.take_of_length_le (by omega)
    simp only [if_neg h1, if_pos h2]
    rw [← htake, hp, utf8Ignore_valid_id p hvp]
  · have hp : p.take 72 = p := List.take_of_length_le (by omega)
    have hq : q.take 72 = q := List.take_of_length_le (by omega)
    simp only [if_neg h1, if_neg h2]
    rw [← hp, htake, hq]

/-- C3.  Password truncation round-trip: hashing a password and verifying the
same password succeeds; verifying a password whose 72-byte truncated value
differs fails; and because the 72-byte UTF-8 truncation is applied identically
on the hash path (`hash_password`) and the verify path (`verify_password`),
any two passwords whose UTF-8 encodings agree on their first 72 bytes verify
against each other's hashes.  Validity hypotheses hold for every byte string
produced by Python `str.encode('utf-8')`. -/
theorem password_truncation_roundtrip (p q : List Nat) :
    verify_password p (hash_password p) = true ∧
    (truncatePassword p ≠ truncatePassword q →
      verify_password q (hash_password p) = false) ∧
    (utf8ValidB p = true → utf8ValidB q = true → p.take 72 = q.take 72 →
      verify_password q (hash_password p) = true) := by
  refine ⟨?_, ?_, ?_⟩
  · simp [verify_password, hash_password]
  · intro hne
    simp only [verify_password, hash_password]
    rw [beq_eq_false_iff_ne]
    exact fun h => hne h.symm
  · intro hvp hvq htake
    simp only [verify_password, hash_password, beq_iff_eq]
    exact (truncatePassword_take_eq p q hvp hvq htake).symm

/-- Witness for C3 at concrete inputs: `p` is 73 bytes of `a`, `q` is the same
73 bytes followed by a `b` (they agree on the first 72 bytes), and `[98]`
(just `b`) truncates differently from `p`. -/
theorem password_truncation_roundtrip_witness :
    verify_password (List.replicate 73 97) (hash_password (List.replicate 73 97)) = true ∧
    verify_password [98] (hash_password (List.replicate 73 97)) = false ∧
    verify_password (List.replicate 73 97 ++ [98])
      (hash_password (List.replicate 73 97)) = true := by
  refine ⟨(password_truncation_roundtrip (List.replicate 73 97) [98]).1,
    (password_truncation_roundtrip (List.replicate 73 97) [98]).2.1 (by decide),
    (password_truncation_roundtrip (List.replicate 73 97)
      (List.replicate 73 97 ++ [98])).2.2 (by decide) (by decide) (by decide)⟩

/-- C1.  Token round-trip and rejection: issuing a token for a subject id and
email (payload `{sub, email, exp: now + ttl}`) and verifying it with the same
secret strictly before the expiry instant returns the original subject id and
email; verification fails with the generic 401 `InvalidToken` error when the
expiry has passed, when the verifying secret differs from the signing secret,
when the payload is malformed, and when the `sub` claim is absent. -/
theorem token_roundtrip_and_rejection (secret secret2 raw : String) (ttl : Int)
    (sub email : String) (now now2 : Int) (payload : JwtPayload) :
    (now2 < now + ttl * 60 →
      verify_token secret
        (create_access_token secret ttl (some sub) (some email) now) now2 =
        .ok (sub, some email)) ∧
    (now + ttl * 60 < now2 →
      verify_token secret
        (create_access_token secret ttl (some sub) (some email) now) now2 =
        .error .invalidToken) ∧
    (secret2 ≠ secret →
      verify_token secret2
        (create_access_token secret ttl (some sub) (some email) now) now2 =
        .error .invalidToken) ∧
    (verify_token secret (.malformed raw) now2 = .error .invalidToken) ∧
    (payload.sub = none →
      verify_token secret (.signed payload secret) now2 = .error .invalidToken) := by
  refine ⟨?_, ?_, ?_, ?_, ?_⟩
  · intro h
    simp only [create_access_token, jwtEncode, verify_token, jwtDecode,
      ne_eq, not_true_eq_false, if_false]
    rw [if_neg (by omega)]
  · intro h
    simp only [create_access_token, jwtEncode, verify_token, jwtDecode,
      ne_eq, not_true_eq_false, if_false]
    rw [if_pos (by omega)]
  · intro h
    simp only [create_access_token, jwtEncode, verify_token, jwtDecode, ne_eq]
    rw [if_pos (Ne.symm h)]
  · rfl
  · intro h
    simp only [verify_token, jwtDecode, ne_eq, not_true_eq_false, if_false]
    cases hexp : payload.exp with
    | none => simp [h]
    | some exp =>
      by_cases hlt : exp < now2
      · simp [hlt]
      · simp [hlt, h]

/-- Witness for C1 at concrete inputs. -/
theorem token_roundtrip_and_rejection_witness :
    (verify_token "s1"
      (create_access_token "s1" 43200 (some "u1") (some "u@x.com") 0) 60 =
      .ok ("u1", some "u@x.com")) ∧
    (verify_token "s1"
      (create_access_token "s1" 43200 (some "u1") (some "u@x.com") 0) 2592001 =
      .error .invalidToken) ∧
    (verify_token "s2"
      (create_access_token "s1" 43200 (some "u1") (some "u@x.com") 0) 60 =
      .error .invalidToken) ∧
    (verify_token "s1" (.malformed "garbage") 60 = .error .invalidToken) ∧
    (verify_token "s1" (.signed ⟨none, some "u@x.com", some 999⟩ "s1") 60 =
      .error .invalidToken) := by
  have h := token_roundtrip_and_rejection "s1" "s2" "garbage" 43200 "u1"
    "u@x.com" 0 60 ⟨none, some "u@x.com", some 999⟩
  have h2 := token_roundtrip_and_rejection "s1" "s2" "garbage" 43200 "u1"
    "u@x.com" 0 2592001 ⟨none, some "u@x.com", some 999⟩
  exact ⟨h.1 (by omega), h2.2.1 (by omega), h.2.2.1 (by decide),
    h.2.2.2.1, h.2.2.2.2 rfl⟩

/-- C2.  Ownership enforcement: when the stored note's owner id differs from
the authenticated caller's id, both `GET /api/notes/{id}` and
`DELETE /api/notes/{id}` answer 403 Forbidden (not 404): the note is not
returned, the store is unchanged, and the delete handler's operation trace is
exactly the read-before-delete with no delete issued — the ownership check
runs after the read and before any delete. -/
theorem ownership_enforced (docs : List NoteDoc) (noteId uid : String)
    (note : NoteDoc)
    (hfind : docs.find? (fun d => d._id == noteId) = some note)
    (howner : note.user_id ≠ some uid) :
    get_note_by_id docs noteId uid =
      .err 403 "No tienes permiso para acceder a esta nota" ∧
    delete_note docs noteId uid =
      (.err 403 "No tienes permiso para eliminar esta nota",
       [.read noteId], docs) := by
  constructor
  · simp only [get_note_by_id, get_transcription, getDocument, hfind]
    rw [if_pos howner]
  · simp only [delete_note, get_transcription, getDocument, hfind]
    rw [if_pos howner]

/-- Witness for C2: `alice`'s note `n1` requested with caller id `bob`. -/
theorem ownership_enforced_witness :
    get_note_by_id demoNotes "n1" "bob" =
      .err 403 "No tienes permiso para acceder a esta nota" ∧
    delete_note demoNotes "n1" "bob" =
      (.err 403 "No tienes permiso para eliminar esta nota",
       [.read "n1"], demoNotes) :=
  ownership_enforced demoNotes "n1" "bob"
    ⟨"n1", "1-abc", some "alice", "Nota", "hola mundo"⟩ rfl (by decide)

/-- C7 (code bug).  For a document id absent from the store (the store
reports 404), `CloudantService.get_transcription` does not return `None`: it
re-raises the `ApiException`, so `GET /api/notes/{id}` answers 500 through
the generic handler and its declared `404 Note Not Found` branch
(`if not note:` in `get_note_by_id`) is unreachable dead code.  The claim
(and `UserService.get_user_by_id`, which does map 404 to `None`) shows the
intended behaviour. -/
theorem missing_note_raises_instead_of_none :
    get_transcription demoNotes "nope" = .error ⟨404, "not_found"⟩ ∧
    get_note_by_id demoNotes "nope" "alice" =
      .err 500 "Error al obtener la nota: not_found" := by
  constructor
  · rfl
  · rfl

/-- C8 (amended).  `UserService.authenticate_user` returns a successful
`none` — never raising — when no user with the email exists, when password
verification fails, and when the user's active flag is false; and, contrary
to the original claim, a store failure during the email lookup is also
converted into a successful `none` by the blanket `except Exception`
handler, never propagated (last conjunct: the result is a normal value for
every lookup outcome). -/
theorem authenticate_user_never_raises
    (lookup : Except String (List UserDoc)) (password : List Nat)
    (e : String) (u : UserDoc) :
    (authenticate_user (.error e) password = .ok none) ∧
    (authenticate_user (.ok []) password = .ok none) ∧
    (verify_password password u.hashed_password = false →
      authenticate_user (.ok [u]) password = .ok none) ∧
    (u.is_active = false → authenticate_user (.ok [u]) password = .ok none) ∧
    (∃ v, authenticate_user lookup password = .ok v) := by
  refine ⟨rfl, rfl, ?_, ?_, ?_⟩
  · intro hv
    simp [authenticate_user, get_user_by_email, hv]
  · intro ha
    simp only [authenticate_user, get_user_by_email, List.head?]
    by_cases hv : verify_password password u.hashed_password = false
    · simp [hv]
    · simp [hv, ha]
  · match lookup with
    | .error e2 => exact ⟨none, rfl⟩
    | .ok [] => exact ⟨none, rfl⟩
    | .ok (u2 :: us) =>
      simp only [authenticate_user, get_user_by_email, List.head?]
      by_cases hv : verify_password password u2.hashed_password = false
      · exact ⟨none, by simp [hv]⟩
      · by_cases ha : u2.is_active = false
        · exact ⟨none, by simp [hv, ha]⟩
        · exact ⟨some ⟨u2._id, u2.email, u2.created_at, u2.is_active⟩,
            by simp [hv, ha]⟩

/-- Witness for C8's amended theorem at concrete inputs. -/
theorem authenticate_user_never_raises_witness :
    (authenticate_user (.error "store down") [97] = .ok none) ∧
    (authenticate_user (.ok []) [97] = .ok none) ∧
    (authenticate_user (.ok [⟨"i1", "a@x.com", ⟨[98]⟩, "t0", true⟩]) [97] =
      .ok none) ∧
    (authenticate_user (.ok [⟨"i1", "a@x.com", ⟨[97]⟩, "t0", false⟩]) [97] =
      .ok none) ∧
    (∃ v, authenticate_user (.ok [⟨"i1", "a@x.com", ⟨[97]⟩, "t0", true⟩]) [97] =
      .ok v) := by
  have h1 := authenticate_user_never_raises (.ok []) [97] "store down"
    ⟨"i1", "a@x.com", ⟨[98]⟩, "t0", true⟩
  have h2 := authenticate_user_never_raises
    (.ok [⟨"i1", "a@x.com", ⟨[97]⟩, "t0", true⟩]) [97] "store down"
    ⟨"i1", "a@x.com", ⟨[97]⟩, "t0", false⟩
  exact ⟨h1.1, h1.2.1, h1.2.2.1 (by decide), h2.2.2.2.1 rfl, h2.2.2.2.2⟩

/-- C8 counterexample: a store failure during the email lookup does not
propagate out of `authenticate_user` — it is converted into the normal
result `.ok none`, refuting "any other failure propagates upward unmodified
rather than being converted into a None result". -/
theorem authenticate_user_swallows_store_error :
    authenticate_user (.error "store down") [] = .ok none ∧
    (Except.ok none : Except String (Option UserPublic)) ≠
      .error "store down" := by
  exact ⟨rfl, fun h => Except.noConfusion h⟩

/-- C4.  Registration and login round-trip: when no stored user has the
given email, `create_user` succeeds with a record whose email matches the
input and which carries no password hash (the returned `UserPublic` has no
hash field — only id, email, creation timestamp and the active flag, set to
`true`), appending the hashed document to the store; authenticating against
the resulting store with the same credentials succeeds and returns that same
hashless record.  When a user with the email already exists, `create_user`
fails with `DuplicateIdentity`. -/
theorem register_then_login (docs : List UserDoc) (freshId nowTs email : String)
    (password : List Nat) :
    (docs.filter (fun d => d.email == email) = [] →
      create_user docs freshId nowTs email password =
        .ok (⟨freshId, email, nowTs, true⟩,
          docs ++
            [⟨freshId, email, hash_password (truncatePassword password),
              nowTs, true⟩]) ∧
      authenticateInStore
        (docs ++
          [⟨freshId, email, hash_password (truncatePassword password),
            nowTs, true⟩]) email password =
        .ok (some ⟨freshId, email, nowTs, true⟩)) ∧
    (docs.filter (fun d => d.email == email) ≠ [] →
      create_user docs freshId nowTs email password =
        .error (.duplicateIdentity email)) := by
  constructor
  · intro hno
    constructor
    · simp [create_user, get_user_by_email, postFindUsers, hno]
    · simp only [authenticateInStore, authenticate_user, get_user_by_email,
        postFindUsers, List.filter_append, hno, List.nil_append]
      simp [verify_password, hash_password, truncatePassword_idem]
  · intro hne
    match hf : docs.filter (fun d => d.email == email) with
    | [] => exact absurd hf hne
    | a :: l => simp [create_user, get_user_by_email, postFindUsers, hf]

/-- Witness for C4: registration into an empty store followed by login, and
a duplicate registration attempt. -/
theorem register_then_login_witness :
    (create_user [] "id1" "t0" "a@x.com" [97, 98] =
      .ok (⟨"id1", "a@x.com", "t0", true⟩,
        [⟨"id1", "a@x.com", hash_password (truncatePassword [97, 98]),
          "t0", true⟩]) ∧
     authenticateInStore
       [⟨"id1", "a@x.com", hash_password (truncatePassword [97, 98]),
         "t0", true⟩] "a@x.com" [97, 98] =
       .ok (some ⟨"id1", "a@x.com", "t0", true⟩)) ∧
    create_user
      [⟨"id1", "a@x.com", hash_password (truncatePassword [97, 98]),
        "t0", true⟩] "id2" "t1" "a@x.com" [99] =
      .error (.duplicateIdentity "a@x.com") := by
  exact ⟨(register_then_login [] "id1" "t0" "a@x.com" [97, 98]).1 rfl,
    (register_then_login
      [⟨"id1", "a@x.com", hash_password (truncatePassword [97, 98]),
        "t0", true⟩] "id2" "t1" "a@x.com" [99]).2 (by decide)⟩

theorem pySplitGo_spaces (cs : List Char) (h : cs.all isPySpace = true) :
    pySplitGo cs [] = [] := by
  induction cs with
  | nil => rfl
  | cons c cs2 ih =>
    simp only [List.all_cons, Bool.and_eq_true] at h
    simp [pySplitGo, h.1, ih h.2]

/-- C9.  Title derivation: `generate_title` returns the fixed placeholder
exactly for the empty input; for non-empty input it splits on whitespace,
joins the first `max_words` tokens with single spaces, and appends a literal
`"..."` if and only if more tokens existed.  The three concrete examples of
the claim are verified, and the function is a pure Lean function, hence
deterministic. -/
theorem generate_title_spec (text : String) (mw : Nat) :
    (generate_title "" mw = "Nota sin título") ∧
    (text ≠ "" →
      generate_title text mw =
        (if mw < (pySplit text).length
         then joinSpace ((pySplit text).take mw) ++ "..."
         else joinSpace ((pySplit text).take mw))) ∧
    generate_title "Reunión con el equipo de desarrollo" 5 =
      "Reunión con el equipo de..." ∧
    generate_title "" 5 = "Nota sin título" ∧
    generate_title "uno dos tres" 5 = "uno dos tres" := by
  refine ⟨rfl, ?_, ?_, rfl, ?_⟩
  · intro h
    simp only [generate_title, if_neg h]
  · rfl
  · rfl

/-- Witness for C9's conditional conjunct at a concrete input. -/
theorem generate_title_spec_witness :
    generate_title "hola mundo" 1 =
      (if 1 < (pySplit "hola mundo").length
       then joinSpace ((pySplit "hola mundo").take 1) ++ "..."
       else joinSpace ((pySplit "hola mundo").take 1)) :=
  (generate_title_spec "hola mundo" 1).2.1 (by decide)

/-- C10.  Implicit edge case: a non-empty input consisting only of
whitespace is truthy in Python, so the placeholder branch is skipped, while
`str.split()` yields no tokens; `generate_title` therefore returns the empty
string, with no placeholder and no ellipsis. -/
theorem generate_title_whitespace_only (text : String) (mw : Nat)
    (hne : text ≠ "") (hsp : text.data.all isPySpace = true) :
    generate_title text mw = "" := by
  simp only [generate_title, if_neg hne, pySplit, pySplitGo_spaces text.data hsp,
    List.map_nil, List.take_nil, List.length_nil]
  rw [if_neg (Nat.not_lt_zero mw)]
  rfl

/-- Witness for C10 on a three-character whitespace string. -/
theorem generate_title_whitespace_only_witness :
    generate_title "  \t" 5 = "" :=
  generate_title_whitespace_only "  \t" 5 (by decide) (by decide)

theorem getLast?_cons_getD {α : Type} (a : α) (l : List α) :
    (a :: l).getLast? = some (l.getLast?.getD a) := by
  induction l generalizing a with
  | nil => rfl
  | cons b bs ih => simp [List.getLast?_cons_cons, ih]

theorem lastErrAfter_eq_getLast (attempt : String → Except WatsonErr RecogResponse) :
    ∀ (cts : List String) (la : Option WatsonErr),
    lastErrAfter attempt cts la =
      match (erroredAttempts attempt cts).getLast? with
      | some e => some e
      | none => la := by
  intro cts
  induction cts with
  | nil => intro la; rfl
  | cons c cs ih =>
    intro la
    simp only [lastErrAfter, erroredAttempts, List.filterMap_cons]
    cases hc : attempt c with
    | ok r =>
      simp only [ih]
      rfl
    | error e =>
      rw [ih (some e)]
      rw [getLast?_cons_getD e (cs.filterMap
        (fun c2 => match attempt c2 with | .error e2 => some e2 | .ok _ => none))]
      cases h2 : (cs.filterMap
        (fun c2 => match attempt c2 with | .error e2 => some e2 | .ok _ => none)).getLast? with
      | some x => simp [erroredAttempts, h2]
      | none => simp [erroredAttempts, h2]

theorem tryContentTypes_skip_append (attempt : String → Except WatsonErr RecogResponse)
    (pre : List String) :
    ∀ (la : Option WatsonErr) (rest : List String),
    (∀ c ∈ pre, attemptSkipped attempt c) →
    tryContentTypes attempt (pre ++ rest) la =
      tryContentTypes attempt rest (lastErrAfter attempt pre la) := by
  induction pre with
  | nil => intro la rest _; rfl
  | cons c cs ih =>
    intro la rest hskip
    have hc := hskip c (List.mem_cons_self c cs)
    have hcs : ∀ x ∈ cs, attemptSkipped attempt x :=
      fun x hx => hskip x (List.mem_cons_of_mem c hx)
    rcases hc with ⟨e, he, htr⟩ | hok | hok
    · simp only [List.cons_append, tryContentTypes, lastErrAfter, he, htr, if_true]
      exact ih (some e) rest hcs
    · simp only [List.cons_append, tryContentTypes, lastErrAfter, hok]
      exact ih la rest hcs
    · simp only [List.cons_append, tryContentTypes, lastErrAfter, hok,
        List.isEmpty_nil, if_true]
      exact ih la rest hcs

theorem tryContentTypes_exhausted (attempt : String → Except WatsonErr RecogResponse)
    (cts : List String) (la : Option WatsonErr)
    (hskip : ∀ c ∈ cts, attemptSkipped attempt c) :
    tryContentTypes attempt cts la =
      match lastErrAfter attempt cts la with
      | some e => .error e
      | none => .ok "" := by
  have h := tryContentTypes_skip_append attempt cts la [] hskip
  rw [List.append_nil] at h
  rw [h]
  rfl

/-- C5 counterexample: with the oracle `cexAttempt` and declared type
`audio/wav`, the first attempt whose response contains a result with a
non-empty alternative transcript is the `audio/webm` fallback (the declared
type's response has one result whose only alternative transcript is the
empty string), so under the claim the client would return `"hola"`; the code
instead stops at the declared type's attempt — whose `results` list is
non-empty — and returns the empty string. -/
theorem fallback_stops_on_empty_transcript :
    transcribe_audio cexAttempt "audio/wav" = .ok "" ∧
    cexAttempt "audio/wav" = .ok ⟨some [⟨[⟨some ""⟩]⟩]⟩ ∧
    cexAttempt "audio/webm" = .ok ⟨some [⟨[⟨some "hola"⟩]⟩]⟩ ∧
    extractTranscripts [⟨[⟨some "hola"⟩]⟩] = "hola" ∧
    (Except.ok "" : Except WatsonErr String) ≠ .ok "hola" := by
  refine ⟨rfl, rfl, rfl, rfl, ?_⟩
  intro h
  exact absurd (Except.ok.inj h) (by decide)

/-- C5 (amended).  Transcription fallback stop condition: for a WAV-like
declared type the candidate list is the declared type followed by the five
fixed fallbacks in priority order, and the client stops at the first attempt
whose response contains one or more results — regardless of whether any
alternative transcript is non-empty — returning the joined transcripts of
that attempt (possibly empty) while the remaining candidates are never
attempted (the final conjunct holds for every continuation of the candidate
list). -/
theorem fallback_first_results_stops
    (attempt : String → Except WatsonErr RecogResponse)
    (declared ct : String) (pre rest : List String) (rs : List RecogResult)
    (hwav : containsSub (strLower declared) "wav" = true)
    (hsplit : candidateTypes declared = pre ++ ct :: rest)
    (hskip : ∀ c ∈ pre, attemptSkipped attempt c)
    (hct : attempt ct = .ok ⟨some rs⟩) (hrs : rs ≠ []) :
    candidateTypes declared = declared :: fallbackTypes ∧
    transcribe_audio attempt declared = .ok (extractTranscripts rs) ∧
    (∀ (rest2 : List String) (la : Option WatsonErr),
      tryContentTypes attempt (pre ++ ct :: rest2) la =
        .ok (extractTranscripts rs)) := by
  have hstep : ∀ (rest2 : List String) (la : Option WatsonErr),
      tryContentTypes attempt (pre ++ ct :: rest2) la =
        .ok (extractTranscripts rs) := by
    intro rest2 la
    rw [tryContentTypes_skip_append attempt pre la (ct :: rest2) hskip]
    simp only [tryContentTypes, hct]
    rw [if_neg (by simp [List.isEmpty_iff, hrs])]
  refine ⟨by simp [candidateTypes, hwav], ?_, hstep⟩
  simp only [transcribe_audio, hsplit, hstep rest none]

/-- Witness for C5's amended theorem: the declared `audio/wav` attempt fails
with a transcode error and the `audio/webm` fallback returns the transcript
`hola`; the loop stops there. -/
theorem fallback_first_results_stops_witness :
    candidateTypes "audio/wav" = "audio/wav" :: fallbackTypes ∧
    transcribe_audio witAttempt "audio/wav" =
      .ok (extractTranscripts [⟨[⟨some "hola"⟩]⟩]) ∧
    (∀ (rest2 : List String) (la : Option WatsonErr),
      tryContentTypes witAttempt (["audio/wav"] ++ "audio/webm" :: rest2) la =
        .ok (extractTranscripts [⟨[⟨some "hola"⟩]⟩])) := by
  refine fallback_first_results_stops witAttempt "audio/wav" "audio/webm"
    ["audio/wav"]
    ["audio/webm;codecs=opus", "audio/ogg;codecs=opus", "audio/mp4", "audio/mpeg"]
    [⟨[⟨some "hola"⟩]⟩] (by decide) (by decide) ?_ rfl (by decide)
  intro c hc
  have hc2 : c = "audio/wav" := by
    cases hc with
    | head => rfl
    | tail _ h => cases h
  rw [hc2]
  exact Or.inl ⟨⟨"unable to transcode audio/wav to audio/l16"⟩, rfl, by decide⟩

/-- C6.  Transcription fallback error policy: a transcode-mismatch error is
recorded and the loop continues; an error of any other kind aborts the loop
at once — for every continuation of the candidate list the result is that
error (wrapped by the outer handler at the top level).  When every candidate
is exhausted without a successful response, the client re-raises the last
recorded error (wrapped) if any attempt erred, and returns empty text if
every attempt returned zero results without erroring. -/
theorem fallback_error_policy
    (attempt : String → Except WatsonErr RecogResponse)
    (declared ct : String) (pre rest : List String) (e elast : WatsonErr) :
    ((∀ c ∈ pre, attemptSkipped attempt c) → attempt ct = .error e →
      isTranscodeErr e.msg = false →
      ∀ (rest2 : List String) (la : Option WatsonErr),
        tryContentTypes attempt (pre ++ ct :: rest2) la = .error e) ∧
    (candidateTypes declared = pre ++ ct :: rest →
      (∀ c ∈ pre, attemptSkipped attempt c) → attempt ct = .error e →
      isTranscodeErr e.msg = false →
      transcribe_audio attempt declared =
        .error ⟨"Error al transcribir audio: " ++ e.msg⟩) ∧
    ((∀ c ∈ candidateTypes declared, attemptSkipped attempt c) →
      (erroredAttempts attempt (candidateTypes declared)).getLast? = some elast →
      transcribe_audio attempt declared =
        .error ⟨"Error al transcribir audio: " ++ elast.msg⟩) ∧
    ((∀ c ∈ candidateTypes declared, attemptSkipped attempt c) →
      erroredAttempts attempt (candidateTypes declared) = [] →
      transcribe_audio attempt declared = .ok "") := by
  have habort : (∀ c ∈ pre, attemptSkipped attempt c) → attempt ct = .error e →
      isTranscodeErr e.msg = false →
      ∀ (rest2 : List String) (la : Option WatsonErr),
        tryContentTypes attempt (pre ++ ct :: rest2) la = .error e := by
    intro hskip hct htr rest2 la
    rw [tryContentTypes_skip_append attempt pre la (ct :: rest2) hskip]
    simp only [tryContentTypes, hct, htr]
    rw [if_neg (by simp)]
  refine ⟨habort, ?_, ?_, ?_⟩
  · intro hsplit hskip hct htr
    simp only [transcribe_audio, hsplit, habort hskip hct htr rest none]
  · intro hskip hlast
    simp only [transcribe_audio,
      tryContentTypes_exhausted attempt (candidateTypes declared) none hskip,
      lastErrAfter_eq_getLast attempt (candidateTypes declared) none, hlast]
  · intro hskip hnone
    simp only [transcribe_audio,
      tryContentTypes_exhausted attempt (candidateTypes declared) none hskip,
      lastErrAfter_eq_getLast attempt (candidateTypes declared) none, hnone,
      List.getLast?_nil]

/-- Witness for C6: a non-transcode error on the second candidate aborts the
loop (wrapped by the outer handler); six transcode errors exhaust the
candidates and the last one is re-raised (wrapped); six zero-result
responses produce empty text. -/
theorem fallback_error_policy_witness :
    transcribe_audio failAttempt "audio/wav" =
      .error ⟨"Error al transcribir audio: connection reset"⟩ ∧
    transcribe_audio allFailAttempt "audio/wav" =
      .error ⟨"Error al transcribir audio: unable to transcode to audio/mpeg"⟩ ∧
    transcribe_audio emptyAttempt "audio/wav" = .ok "" := by
  refine ⟨?_, ?_, ?_⟩
  · refine (fallback_error_policy failAttempt "audio/wav" "audio/webm"
      ["audio/wav"]
      ["audio/webm;codecs=opus", "audio/ogg;codecs=opus", "audio/mp4", "audio/mpeg"]
      ⟨"connection reset"⟩ ⟨"connection reset"⟩).2.1 (by decide) ?_ rfl (by decide)
    intro c hc
    fin_cases hc
    exact Or.inl ⟨⟨"cannot transcode audio"⟩, rfl, by decide⟩
  · refine (fallback_error_policy allFailAttempt "audio/wav" "audio/webm"
      [] [] ⟨"x"⟩ ⟨"unable to transcode to audio/mpeg"⟩).2.2.1 ?_ (by decide)
    intro c hc
    fin_cases hc <;> exact Or.inl ⟨_, rfl, by decide⟩
  · refine (fallback_error_policy emptyAttempt "audio/wav" "audio/webm"
      [] [] ⟨"x"⟩ ⟨"x"⟩).2.2.2 ?_ (by decide)
    intro c _
    exact Or.inr (Or.inr rfl)

end VozNota
